import Mathlib

/-!
Shallow embedding of the OpenAI tag-inference job handler
(`apps/workers`-style queue consumer) of the hoarder repository.

The handler, `runOpenAI`, consumes a job carrying a bookmark id, asks a
chat-completion API for hashtags describing the bookmarked link, strips a
leading hashtag marker from each tag, creates the tags that the user does
not already own, and associates all resulting tag ids with the bookmark.

External collaborators (the Prisma ORM, the OpenAI client, `JSON.parse`)
are modelled as explicit state / oracle inputs:
  * the database is a `DB` record of row lists, threaded through the
    storage operations;
  * the AI chat-completion response is an `AIResponse` oracle carrying the
    message content and the outcome of `JSON.parse` on it (`JSON.parse` is
    a JS builtin, so its result is an input of the model, while the zod
    schema validation applied to that result is embedded faithfully);
  * every storage read/write and the AI call are recorded in an effect
    trace so that frame properties ("no storage writes", "AI never
    called") are expressible;
  * the Prisma schema is absent from `src/`, so the tag table's
    uniqueness constraint on (userId, name), declared in the spec's data
    model, is modelled from the spec: a create of an already-owned
    (userId, name) pair fails with a constraint error, and the
    `Promise.all` create loops run without a transaction, so rows created
    before a failing create persist.
-/

namespace Hoarder

/-- A JSON value, as produced by `JSON.parse`. -/
inductive Json where
  | null
  | bool (b : Bool)
  | num (n : Int)
  | str (s : String)
  | arr (elems : List Json)
  | obj (fields : List (String × Json))

/-- A `Link` row: URL plus optional textual description
(`description` is nullable in the schema; the empty string is also
falsy in JS and treated like absence by the handler). -/
structure Link where
  id : String
  url : String
  description : Option String
deriving DecidableEq

/-- A `Bookmark` row with its (optional) joined `link`, as returned by
`prisma.bookmark.findUnique({ include: { link: true } })`. -/
structure Bookmark where
  id : String
  userId : String
  link : Option Link
deriving DecidableEq

/-- A `bookmarkTags` row: tag name scoped per user. -/
structure TagRow where
  id : String
  userId : String
  name : String
deriving DecidableEq

/-- A `tagsOnBookmarks` row: the bookmark-tag association, recording the
attaching actor. -/
structure TagOnBookmark where
  tagId : String
  bookmarkId : String
  attachedBy : String
deriving DecidableEq

/-- The storage state seen through the ORM: the row lists of the three
tables the handler touches, plus a counter for fresh row ids (id
generation happens inside the external database; we model it as a
deterministic fresh-name supply). -/
structure DB where
  bookmarks : List Bookmark
  tags : List TagRow
  tagsOnBookmarks : List TagOnBookmark
  nextId : Nat
deriving DecidableEq

/-- One observable interaction of the handler with the outside world. -/
inductive Effect where
  | readBookmark (id : String)
  | readTags (userId : String) (names : List String)
  | aiCall
  | createTag (userId : String) (name : String)
  | createAssoc (tagId : String) (bookmarkId : String) (attachedBy : String)
deriving DecidableEq

/-- The two environment variables gating the handler
(`process.env.OPENAI_API_KEY`, `process.env.OPENAI_ENABLED`);
`none` models an unset variable. -/
structure Env where
  OPENAI_API_KEY : Option String
  OPENAI_ENABLED : Option String
deriving DecidableEq

/-- The bullmq job: `job.id` (possibly undefined) and the raw `job.data`
payload, a JSON value to be validated. -/
structure Job where
  id : Option String
  data : Json

/-- The AI chat-completion oracle: `content` is
`chatCompletion.choices[0].message.content` (`none` models null), and
`parsedContent` is the outcome of the external `JSON.parse` on that
content (`none` models a thrown SyntaxError). -/
structure AIResponse where
  content : Option String
  parsedContent : Option Json

/-- JS falsiness of a nullable string: `!x` is true exactly when the
value is null/undefined or the empty string. -/
def isFalsyOpt : Option String → Bool
  | none => true
  | some s => s == ""

/-- First field of a JS object with a given key (post-`JSON.parse`
objects have unique keys). -/
def lookupField (fields : List (String × Json)) (key : String) : Option Json :=
  (fields.find? (fun p => p.1 == key)).map (fun p => p.2)

/-- `z.string()` applied to a JSON value. -/
def asString : Json → Option String
  | Json.str s => some s
  | _ => none

/-- The zod schema `z.object({ tags: z.array(z.string()) })`: requires an
object whose `tags` field is an array of strings, and returns that
array; `none` models a thrown ZodError. -/
def openAIResponseSchemaParse : Json → Option (List String)
  | Json.obj fields =>
    match lookupField fields ("tags") with
    | some (Json.arr elems) => elems.mapM asString
    | _ => none
  | _ => none

/-- Modelled from the spec: `zOpenAIRequestSchema` lives in the shared
queues package, which is not under `src/`; the spec says the job payload
is validated against "a schema exposing at least a bookmark identifier
field". We model the payload schema as requiring an object with a string
`bookmarkId` field and returning that id; `none` models a failed
`safeParse`. -/
def zOpenAIRequestSchemaSafeParse : Json → Option String
  | Json.obj fields =>
    match lookupField fields ("bookmarkId") with
    | some (Json.str s) => some s
    | _ => none
  | _ => none

/-- `t.startsWith("#") ? t.slice(1) : t` — strip one leading hashtag
character (JS `slice(1)` drops the first code unit; `#` is one unit). -/
def stripHash (t : String) : String :=
  match t.data with
  | '#' :: rest => String.mk rest
  | _ => t

/-- `prisma.bookmark.findUnique({ where: { id }, include: { link: true } })`. -/
def fetchBookmark (linkId : String) (db : DB) : Option Bookmark :=
  db.bookmarks.find? (fun b => b.id == linkId)

/-- `inferTags(jobId, link, openai)`: requires a truthy link description,
issues the chat-completion request, requires truthy message content,
parses and schema-validates the JSON response and strips leading
hashtags. Returns the outcome together with a flag telling whether the
AI call was issued. The `${e}` interpolation of the caught exception is
modelled by an opaque tail. -/
def inferTags (jobId : String) (link : Link) (resp : AIResponse) :
    Except String (List String) × Bool :=
  if isFalsyOpt link.description then
    (Except.error ("[openai][" ++ jobId ++ "] No description found for link. Skipping ..."),
     false)
  else
    -- `openai.chat.completions.create` is issued here
    if isFalsyOpt resp.content then
      (Except.error ("[openai][" ++ jobId ++ "] Got no message content from OpenAI"), true)
    else
      match resp.parsedContent with
      | none =>
        (Except.error ("[openai][" ++ jobId ++ "] Failed to parse JSON response from OpenAI: error"),
         true)
      | some j =>
        match openAIResponseSchemaParse j with
        | none =>
          (Except.error ("[openai][" ++ jobId ++ "] Failed to parse JSON response from OpenAI: error"),
           true)
        | some tags => (Except.ok (tags.map stripHash), true)

/-- Modelled from the spec: the Prisma schema is not under `src/`; spec
section 3 declares for tags "uniqueness enforced by (userId, name)", so
`prisma.bookmarkTags.create` raises a constraint violation when the user
already owns a tag row with the same name, and otherwise inserts the row
(with a database-generated fresh id, modelled by the deterministic
supply). -/
def bookmarkTagsCreate (name : String) (userId : String) (db : DB) :
    Except String TagRow × DB :=
  if db.tags.any (fun t => t.userId == userId && t.name == name) then
    (Except.error ("Unique constraint failed on (userId, name)"), db)
  else
    let row : TagRow := ⟨"t" ++ toString db.nextId, userId, name⟩
    (Except.ok row, { db with tags := db.tags ++ [row], nextId := db.nextId + 1 })

/-- The `Promise.all(newTags.map(t => prisma.bookmarkTags.create(...)))`
loop. Every create is issued — with `Promise.all` the creates after a
failing one have already started and still run, and their rows persist —
and the loop resolves to the created rows when all succeed, or rejects
with the first constraint error otherwise, in both cases with the state
holding every row whose create succeeded. There is no transaction. -/
def createTagRows (names : List String) (userId : String) (db : DB) :
    Except String (List TagRow) × DB :=
  match names with
  | [] => (Except.ok [], db)
  | n :: rest =>
    match bookmarkTagsCreate n userId db with
    | (Except.ok row, db1) =>
      match createTagRows rest userId db1 with
      | (Except.ok rows, db2) => (Except.ok (row :: rows), db2)
      | (Except.error e, db2) => (Except.error e, db2)
    | (Except.error e, db1) => (Except.error e, (createTagRows rest userId db1).2)

/-- `prisma.bookmarkTags.findMany({ where: { userId, name: { in: tags } } })`:
the user's existing tag rows whose name is among `tags`. -/
def findExistingTags (tags : List String) (userId : String) (db : DB) : List TagRow :=
  db.tags.filter (fun t => t.userId == userId && tags.contains t.name)

/-- `const existingTagSet = new Set(existingTags.map(t => t.name))`. -/
def existingTagNames (tags : List String) (userId : String) (db : DB) : List String :=
  (findExistingTags tags userId db).map (fun t => t.name)

/-- `const newTags = tags.filter(t => !existingTagSet.has(t))`. -/
def newTagNames (tags : List String) (userId : String) (db : DB) : List String :=
  tags.filter (fun t => !((existingTagNames tags userId db).contains t))

/-- `createTags(tags, userId)`: reads the user's existing tags with names
in `tags`, issues one create per name not among them, and returns the
existing ids concatenated with the new ids — or the first create error,
which propagates out of the awaited `Promise.all`. -/
def createTags (tags : List String) (userId : String) (db : DB) :
    Except String (List String) × DB × List Effect :=
  let newTags := newTagNames tags userId db
  let res := createTagRows newTags userId db
  ((match res.1 with
    | Except.ok rows =>
      Except.ok ((findExistingTags tags userId db).map (fun t => t.id)
        ++ rows.map (fun t => t.id))
    | Except.error e => Except.error e),
   res.2,
   Effect.readTags userId tags :: newTags.map (fun n => Effect.createTag userId n))

/-- `connectTags(bookmarkId, tagIds)`: creates one `tagsOnBookmarks` row
per tag id, attributed to `"ai"`. -/
def connectTags (bookmarkId : String) (tagIds : List String) (db : DB) : DB :=
  { db with
    tagsOnBookmarks :=
      db.tagsOnBookmarks ++ tagIds.map (fun tagId => ⟨tagId, bookmarkId, "ai"⟩) }

/-- `const jobId = job.id || "unknown"`. -/
def effectiveJobId (job : Job) : String :=
  match job.id with
  | none => "unknown"
  | some i => if i == "" then "unknown" else i

/-- Outcome of one handler invocation: the thrown error or normal return,
the final storage state, and the trace of external effects. -/
structure RunResult where
  outcome : Except String Unit
  db : DB
  trace : List Effect

/-- `runOpenAI(job)`: the job handler. Checks the environment gate,
validates the payload, loads the bookmark and its link, infers tags,
creates the missing ones and connects all of them to the bookmark. -/
def runOpenAI (env : Env) (job : Job) (resp : AIResponse) (db : DB) : RunResult :=
  if isFalsyOpt env.OPENAI_API_KEY || isFalsyOpt env.OPENAI_ENABLED then
    ⟨Except.ok (), db, []⟩
  else
    match zOpenAIRequestSchemaSafeParse job.data with
    | none =>
      ⟨Except.error ("[openai][" ++ effectiveJobId job ++ "] Got malformed job request: error"),
       db, []⟩
    | some bookmarkId =>
      match fetchBookmark bookmarkId db with
      | none =>
        ⟨Except.error ("[openai][" ++ effectiveJobId job ++ "] bookmark with id " ++ bookmarkId ++ " was not found"),
         db, [Effect.readBookmark bookmarkId]⟩
      | some bookmark =>
        match bookmark.link with
        | none =>
          ⟨Except.error ("[openai][" ++ effectiveJobId job ++ "] bookmark with id " ++ bookmarkId ++ " doesn't have a link"),
           db, [Effect.readBookmark bookmarkId]⟩
        | some link =>
          match inferTags (effectiveJobId job) link resp with
          | (Except.error e, aiCalled) =>
            ⟨Except.error e, db,
             [Effect.readBookmark bookmarkId]
               ++ (if aiCalled then [Effect.aiCall] else [])⟩
          | (Except.ok tags, aiCalled) =>
            match createTags tags bookmark.userId db with
            | (Except.error e, db2, effs) =>
              ⟨Except.error e, db2,
               ([Effect.readBookmark bookmarkId]
                  ++ (if aiCalled then [Effect.aiCall] else [])) ++ effs⟩
            | (Except.ok tagIds, db2, effs) =>
              ⟨Except.ok (), connectTags bookmarkId tagIds db2,
               ([Effect.readBookmark bookmarkId]
                  ++ (if aiCalled then [Effect.aiCall] else []))
                 ++ effs
                 ++ tagIds.map (fun tid => Effect.createAssoc tid bookmarkId ("ai"))⟩

/-- `s` has `sub` as a substring. -/
def containsSub (s sub : String) : Prop :=
  ∃ p q, s = p ++ sub ++ q

/-! ### Shared lemmas -/

/-- A filter over a list in which exactly one element satisfies the
predicate returns that element alone. -/
theorem filter_eq_singleton {α : Type} [DecidableEq α]
    (l : List α) (p : α → Bool) (a : α)
    (ha : a ∈ l) (hc : l.count a = 1)
    (hp : ∀ x ∈ l, (p x = true ↔ x = a)) :
    l.filter p = [a] := by
  induction l with
  | nil => cases ha
  | cons x xs ih =>
    by_cases hxa : x = a
    · subst hxa
      have hcount : xs.count x = 0 := by
        have h1 : (x :: xs).count x = xs.count x + 1 := List.count_cons_self x xs
        omega
      have hnotmem : x ∉ xs := List.count_eq_zero.mp hcount
      have hpx : p x = true := (hp x (List.mem_cons_self x xs)).mpr rfl
      rw [List.filter_cons_of_pos hpx]
      have hrest : xs.filter p = [] := by
        rw [List.filter_eq_nil_iff]
        intro b hb hpb
        exact hnotmem (((hp b (List.mem_cons_of_mem x hb)).mp hpb) ▸ hb)
      rw [hrest]
    · have hpx : ¬ p x = true := fun h =>
        hxa ((hp x (List.mem_cons_self x xs)).mp h)
      rw [List.filter_cons_of_neg hpx]
      have ha' : a ∈ xs := by
        cases List.mem_cons.mp ha with
        | inl h => exact absurd h.symm hxa
        | inr h => exact h
      have hc' : xs.count a = 1 := by
        have := List.count_cons_of_ne (fun h => hxa h.symm) (l := xs) (a := a)
        omega
      exact ih ha' hc' (fun x hx => hp x (List.mem_cons_of_mem _ hx))

/-- A failing create leaves the storage state untouched. -/
theorem bookmarkTagsCreate_error_eq (name userId : String) (db : DB)
    (e : String) (db1 : DB)
    (h : bookmarkTagsCreate name userId db = (Except.error e, db1)) :
    db1 = db := by
  unfold bookmarkTagsCreate at h
  split at h
  · simp only [Prod.mk.injEq] at h
    exact h.2.symm
  · simp at h

/-- A successful create appends one row for the given user and name, and
certifies that no row with that (userId, name) pair existed before. -/
theorem bookmarkTagsCreate_ok_eq (name userId : String) (db : DB)
    (row : TagRow) (db1 : DB)
    (h : bookmarkTagsCreate name userId db = (Except.ok row, db1)) :
    row.userId = userId ∧ row.name = name
      ∧ db1.tags = db.tags ++ [row]
      ∧ db1.tagsOnBookmarks = db.tagsOnBookmarks
      ∧ db1.bookmarks = db.bookmarks
      ∧ ∀ r ∈ db.tags, r.userId = userId → r.name ≠ name := by
  unfold bookmarkTagsCreate at h
  split at h
  · simp at h
  · rename_i hcond
    simp only [Prod.mk.injEq, Except.ok.injEq] at h
    obtain ⟨hrow, hdb⟩ := h
    subst hrow
    subst hdb
    refine ⟨rfl, rfl, rfl, rfl, rfl, ?_⟩
    intro r hr hru hrn
    exact hcond (List.any_eq_true.mpr ⟨r, hr, by simp [hru, hrn]⟩)

/-- After a successful head create, the final state of the loop is the
final state of the tail loop run from the post-create state. -/
theorem createTagRows_cons_ok_snd (n : String) (rest : List String)
    (userId : String) (db db1 : DB) (row : TagRow)
    (hc : bookmarkTagsCreate n userId db = (Except.ok row, db1)) :
    (createTagRows (n :: rest) userId db).2 = (createTagRows rest userId db1).2 := by
  simp only [createTagRows, hc]
  rcases h2 : createTagRows rest userId db1 with ⟨res2, db2⟩
  cases res2 <;> rfl

/-- After a failing head create, the final state of the loop is the
final state of the tail loop (the remaining creates still run). -/
theorem createTagRows_cons_error_snd (n : String) (rest : List String)
    (userId : String) (db db1 : DB) (e : String)
    (hc : bookmarkTagsCreate n userId db = (Except.error e, db1)) :
    (createTagRows (n :: rest) userId db).2 = (createTagRows rest userId db1).2 := by
  simp only [createTagRows, hc]

/-- The create loop touches only the tags table and the id supply. -/
theorem createTagRows_frame (names : List String) (userId : String) (db : DB) :
    (createTagRows names userId db).2.tagsOnBookmarks = db.tagsOnBookmarks
      ∧ (createTagRows names userId db).2.bookmarks = db.bookmarks := by
  induction names generalizing db with
  | nil => exact ⟨rfl, rfl⟩
  | cons n rest ih =>
    rcases hc : bookmarkTagsCreate n userId db with ⟨res1, db1⟩
    cases res1 with
    | error e =>
      rw [createTagRows_cons_error_snd n rest userId db db1 e hc]
      have hdb1 : db1 = db := bookmarkTagsCreate_error_eq n userId db e db1 hc
      rw [hdb1]
      exact ih db
    | ok row =>
      rw [createTagRows_cons_ok_snd n rest userId db db1 row hc]
      obtain ⟨-, -, -, ha, hb, -⟩ := bookmarkTagsCreate_ok_eq n userId db row db1 hc
      exact ⟨(ih db1).1.trans ha, (ih db1).2.trans hb⟩

/-- Every row in the tags table after the create loop either was there
before or is a created row: owned by the given user, named by one of the
given names, and with no (userId, name) twin in the initial table. -/
theorem createTagRows_mem_characterization
    (names : List String) (userId : String) (db : DB) :
    ∀ row ∈ (createTagRows names userId db).2.tags,
      row ∈ db.tags
        ∨ (row.userId = userId ∧ row.name ∈ names
            ∧ ∀ r ∈ db.tags, r.userId = userId → r.name ≠ row.name) := by
  induction names generalizing db with
  | nil => intro row hrow; exact Or.inl hrow
  | cons n rest ih =>
    intro row hrow
    rcases hc : bookmarkTagsCreate n userId db with ⟨res1, db1⟩
    cases res1 with
    | error e =>
      rw [createTagRows_cons_error_snd n rest userId db db1 e hc] at hrow
      have hdb1 : db1 = db := bookmarkTagsCreate_error_eq n userId db e db1 hc
      rw [hdb1] at hrow
      rcases ih db row hrow with h | ⟨h1, h2, h3⟩
      · exact Or.inl h
      · exact Or.inr ⟨h1, List.mem_cons_of_mem _ h2, h3⟩
    | ok row0 =>
      rw [createTagRows_cons_ok_snd n rest userId db db1 row0 hc] at hrow
      obtain ⟨hu0, hn0, htags0, -, -, hfresh0⟩ :=
        bookmarkTagsCreate_ok_eq n userId db row0 db1 hc
      rcases ih db1 row hrow with h | ⟨g1, g2, g3⟩
      · rw [htags0, List.mem_append] at h
        rcases h with h | h
        · exact Or.inl h
        · simp only [List.mem_singleton] at h
          subst h
          refine Or.inr ⟨hu0, ?_, ?_⟩
          · rw [hn0]; exact List.mem_cons_self n rest
          · intro r hr hru
            rw [hn0]
            exact hfresh0 r hr hru
      · refine Or.inr ⟨g1, List.mem_cons_of_mem _ g2, ?_⟩
        intro r hr
        exact g3 r (by rw [htags0]; exact List.mem_append_left _ hr)

/-- No two rows of `l` share their (userId, name) pair. -/
def uniqByUserName (l : List TagRow) : Prop :=
  l.Pairwise (fun a b => ¬(a.userId = b.userId ∧ a.name = b.name))

/-- A single create preserves (userId, name) uniqueness of the tags
table: the constraint check refuses exactly the violating inserts. -/
theorem bookmarkTagsCreate_uniq (name userId : String) (db : DB)
    (h : uniqByUserName db.tags) :
    uniqByUserName (bookmarkTagsCreate name userId db).2.tags := by
  unfold bookmarkTagsCreate
  split
  · exact h
  · rename_i hcond
    unfold uniqByUserName at h ⊢
    rw [List.pairwise_append]
    refine ⟨h, List.pairwise_singleton _ _, ?_⟩
    intro a ha b hb
    simp only [List.mem_singleton] at hb
    subst hb
    rintro ⟨h1, h2⟩
    exact hcond (List.any_eq_true.mpr ⟨a, ha, by simp [h1, h2]⟩)

/-- The create loop preserves (userId, name) uniqueness of the tags
table. -/
theorem createTagRows_uniq (names : List String) (userId : String) (db : DB)
    (h : uniqByUserName db.tags) :
    uniqByUserName (createTagRows names userId db).2.tags := by
  induction names generalizing db with
  | nil => exact h
  | cons n rest ih =>
    rcases hc : bookmarkTagsCreate n userId db with ⟨res1, db1⟩
    have hu1 : uniqByUserName db1.tags := by
      have := bookmarkTagsCreate_uniq n userId db h
      rw [hc] at this
      exact this
    cases res1 with
    | error e =>
      rw [createTagRows_cons_error_snd n rest userId db db1 e hc]
      exact ih db1 hu1
    | ok row =>
      rw [createTagRows_cons_ok_snd n rest userId db db1 row hc]
      exact ih db1 hu1

/-- `createTags` never touches the association or bookmark tables. -/
theorem createTags_frame (tags : List String) (userId : String) (db : DB) :
    (createTags tags userId db).2.1.tagsOnBookmarks = db.tagsOnBookmarks
      ∧ (createTags tags userId db).2.1.bookmarks = db.bookmarks := by
  simp only [createTags]
  exact createTagRows_frame _ _ _

/-- An erroring `createTags` issued at least one tag create for the
given user (had no create been needed, the `Promise.all` over an empty
list would have resolved). -/
theorem createTags_error_effect (tags : List String) (userId : String)
    (db : DB) (e : String) (db2 : DB) (effs : List Effect)
    (h : createTags tags userId db = (Except.error e, db2, effs)) :
    ∃ n, Effect.createTag userId n ∈ effs := by
  rcases hn : newTagNames tags userId db with _ | ⟨m, rest⟩
  · exfalso
    have h1 := congrArg (fun p => p.1) h
    simp [createTags, hn, createTagRows] at h1
  · refine ⟨m, ?_⟩
    have h3 := congrArg (fun p => p.2.2) h
    simp only [createTags, hn] at h3
    rw [← h3]
    exact List.mem_cons_of_mem _ (by simp)

/-- Anatomy of a run: either it returns normally, or the association
table is untouched and — when no tag create was ever issued — the whole
storage state is unchanged. -/
theorem runOpenAI_frame (env : Env) (job : Job) (resp : AIResponse) (db : DB) :
    (runOpenAI env job resp db).outcome = Except.ok ()
      ∨ ((runOpenAI env job resp db).db.tagsOnBookmarks = db.tagsOnBookmarks
          ∧ ((∀ u n, Effect.createTag u n ∉ (runOpenAI env job resp db).trace) →
              (runOpenAI env job resp db).db = db)) := by
  unfold runOpenAI
  split
  · left; rfl
  · split
    · right; exact ⟨rfl, fun _ => rfl⟩
    · split
      · right; exact ⟨rfl, fun _ => rfl⟩
      · split
        · right; exact ⟨rfl, fun _ => rfl⟩
        · split
          · right; exact ⟨rfl, fun _ => rfl⟩
          · split
            · right
              rename_i e db2 effs heq
              constructor
              · exact (congrArg (fun p => p.2.1.tagsOnBookmarks) heq).symm.trans
                  (createTags_frame _ _ _).1
              · intro hno
                obtain ⟨n, hn⟩ := createTags_error_effect _ _ _ _ _ _ heq
                exact absurd (List.mem_append_right _ hn) (hno _ n)
            · left; rfl

/-! ### Claims -/

/-- C1: for a job whose inferred tag list is `["foo","baz"]` and whose
user already owns exactly one tag named `"foo"` (and none named
`"baz"`), the handler creates exactly one new tag row (named `"baz"`)
and associates the ids of both the existing `"foo"` row and the new
`"baz"` row with the bookmark. -/
theorem existing_and_new_tags_linked
    (userId bookmarkId : String) (fooRow : TagRow) (db : DB)
    (hmem : fooRow ∈ db.tags)
    (huser : fooRow.userId = userId)
    (hname : fooRow.name = "foo")
    (hcount : db.tags.count fooRow = 1)
    (honly : ∀ t ∈ db.tags, t.userId = userId →
      (t.name = "foo" ∨ t.name = "baz") → t = fooRow) :
    ∃ newId,
      (createTags ["foo", "baz"] userId db).2.1.tags
        = db.tags ++ [⟨newId, userId, "baz"⟩]
      ∧ (createTags ["foo", "baz"] userId db).1 = Except.ok [fooRow.id, newId]
      ∧ (connectTags bookmarkId [fooRow.id, newId]
            (createTags ["foo", "baz"] userId db).2.1).tagsOnBookmarks
        = db.tagsOnBookmarks
            ++ [⟨fooRow.id, bookmarkId, "ai"⟩, ⟨newId, bookmarkId, "ai"⟩] := by
  have hfilter : findExistingTags ["foo", "baz"] userId db = [fooRow] := by
    unfold findExistingTags
    apply filter_eq_singleton db.tags _ fooRow hmem hcount
    intro x hx
    constructor
    · intro hpx
      simp only [Bool.and_eq_true, beq_iff_eq, List.contains_cons, List.contains_nil,
        Bool.or_eq_true, Bool.or_false] at hpx
      exact honly x hx hpx.1 hpx.2
    · intro hxe
      subst hxe
      simp [huser, hname]
  have hnewnames : newTagNames ["foo", "baz"] userId db = ["baz"] := by
    simp [newTagNames, existingTagNames, hfilter, hname]
  have hnobaz : db.tags.any (fun t => t.userId == userId && t.name == "baz") = false := by
    rw [List.any_eq_false]
    intro t ht hp
    simp only [Bool.and_eq_true, beq_iff_eq] at hp
    have ht2 := honly t ht hp.1 (Or.inr hp.2)
    subst ht2
    rw [hname] at hp
    exact absurd hp.2 (by decide)
  refine ⟨"t" ++ toString db.nextId, ?_, ?_, ?_⟩
  · simp [createTags, hnewnames, createTagRows, bookmarkTagsCreate, hnobaz]
  · simp [createTags, hfilter, hnewnames, createTagRows, bookmarkTagsCreate, hnobaz]
  · simp [createTags, connectTags, hnewnames, createTagRows, bookmarkTagsCreate, hnobaz]

/-- C1 witness. -/
theorem existing_and_new_tags_linked_witness :
    ∃ newId,
      (createTags ["foo", "baz"] "u1"
          (⟨[], [⟨"tf", "u1", "foo"⟩], [], 0⟩ : DB)).2.1.tags
        = (⟨[], [⟨"tf", "u1", "foo"⟩], [], 0⟩ : DB).tags ++ [⟨newId, "u1", "baz"⟩]
      ∧ (createTags ["foo", "baz"] "u1"
          (⟨[], [⟨"tf", "u1", "foo"⟩], [], 0⟩ : DB)).1
        = Except.ok [(⟨"tf", "u1", "foo"⟩ : TagRow).id, newId]
      ∧ (connectTags "b1" [(⟨"tf", "u1", "foo"⟩ : TagRow).id, newId]
            (createTags ["foo", "baz"] "u1"
              (⟨[], [⟨"tf", "u1", "foo"⟩], [], 0⟩ : DB)).2.1).tagsOnBookmarks
        = (⟨[], [⟨"tf", "u1", "foo"⟩], [], 0⟩ : DB).tagsOnBookmarks
            ++ [⟨(⟨"tf", "u1", "foo"⟩ : TagRow).id, "b1", "ai"⟩, ⟨newId, "b1", "ai"⟩] :=
  existing_and_new_tags_linked "u1" "b1" ⟨"tf", "u1", "foo"⟩
    ⟨[], [⟨"tf", "u1", "foo"⟩], [], 0⟩ (by decide) rfl rfl (by decide) (by decide)

/-- C2: for every AI response whose parsed JSON is
`{"tags":["#foo","bar"]}`, the tag names the handler passes on for
storage are exactly `["foo","bar"]`: the leading `#` is stripped and
every other tag is unchanged. -/
theorem hashtag_stripped_tags_stored
    (jobId : String) (link : Link) (resp : AIResponse)
    (hdesc : isFalsyOpt link.description = false)
    (hcontent : isFalsyOpt resp.content = false)
    (hjson : resp.parsedContent
      = some (Json.obj [("tags", Json.arr [Json.str ("#foo"), Json.str ("bar")])])) :
    (inferTags jobId link resp).1 = Except.ok ["foo", "bar"] := by
  unfold inferTags
  rw [hdesc, hcontent, hjson]
  rfl

/-- C2 witness. -/
theorem hashtag_stripped_tags_stored_witness :
    (inferTags "j1" (⟨"l1", "u1", some "d"⟩ : Link)
        ⟨some "c", some (Json.obj [("tags", Json.arr [Json.str ("#foo"), Json.str ("bar")])])⟩).1
      = Except.ok ["foo", "bar"] :=
  hashtag_stripped_tags_stored "j1" ⟨"l1", "u1", some "d"⟩
    ⟨some "c", some (Json.obj [("tags", Json.arr [Json.str ("#foo"), Json.str ("bar")])])⟩
    rfl rfl rfl

/-- C3 counterexample: a job with a malformed payload and both
environment variables unset makes the handler return normally (no
throw), refuting the claim that payload validation happens before the
configuration gate. -/
theorem malformed_payload_unconfigured_no_throw :
    zOpenAIRequestSchemaSafeParse Json.null = none
      ∧ runOpenAI ⟨none, none⟩ ⟨some "job1", Json.null⟩ ⟨none, none⟩ ⟨[], [], [], 0⟩
        = ⟨Except.ok (), ⟨[], [], [], 0⟩, []⟩ :=
  ⟨rfl, rfl⟩

/-- C3 amended: the handler checks the configuration gate first and only
afterwards validates the payload: with the gate closed a malformed
payload is a silent no-op, and with the gate open a malformed payload
throws an error mentioning the effective job id. -/
theorem config_gate_precedes_validation
    (job : Job) (resp : AIResponse) (db : DB)
    (hmal : zOpenAIRequestSchemaSafeParse job.data = none) :
    (∀ env : Env,
        (isFalsyOpt env.OPENAI_API_KEY || isFalsyOpt env.OPENAI_ENABLED) = true →
        runOpenAI env job resp db = ⟨Except.ok (), db, []⟩)
      ∧ ∀ env : Env,
          (isFalsyOpt env.OPENAI_API_KEY || isFalsyOpt env.OPENAI_ENABLED) = false →
          ∃ msg, (runOpenAI env job resp db).outcome = Except.error msg
            ∧ containsSub msg (effectiveJobId job) := by
  constructor
  · intro env henv
    unfold runOpenAI
    rw [henv]
    rfl
  · intro env henv
    unfold runOpenAI
    rw [henv, hmal]
    exact ⟨_, rfl, "[openai][", "] Got malformed job request: error", rfl⟩

/-- C3 amended witness. -/
theorem config_gate_precedes_validation_witness :
    runOpenAI ⟨none, some "1"⟩ ⟨some "j", Json.null⟩ ⟨none, none⟩ ⟨[], [], [], 0⟩
        = ⟨Except.ok (), ⟨[], [], [], 0⟩, []⟩
      ∧ ∃ msg,
          (runOpenAI ⟨some "k", some "1"⟩ ⟨some "j", Json.null⟩ ⟨none, none⟩
            ⟨[], [], [], 0⟩).outcome = Except.error msg
          ∧ containsSub msg (effectiveJobId ⟨some "j", Json.null⟩) :=
  ⟨(config_gate_precedes_validation ⟨some "j", Json.null⟩ ⟨none, none⟩ ⟨[], [], [], 0⟩ rfl).1
      ⟨none, some "1"⟩ rfl,
   (config_gate_precedes_validation ⟨some "j", Json.null⟩ ⟨none, none⟩ ⟨[], [], [], 0⟩ rfl).2
      ⟨some "k", some "1"⟩ rfl⟩

/-- C4: if `OPENAI_API_KEY` or `OPENAI_ENABLED` is unset, the handler
returns normally with the storage state unchanged and an empty effect
trace: no storage reads or writes and no AI call. -/
theorem unconfigured_silent_noop
    (env : Env) (job : Job) (resp : AIResponse) (db : DB)
    (h : env.OPENAI_API_KEY = none ∨ env.OPENAI_ENABLED = none) :
    runOpenAI env job resp db = ⟨Except.ok (), db, []⟩ := by
  unfold runOpenAI
  rcases h with h | h <;> rw [h] <;> simp [isFalsyOpt]

/-- C4 witness. -/
theorem unconfigured_silent_noop_witness :
    runOpenAI ⟨none, some "1"⟩
        ⟨some "j2", Json.obj [("bookmarkId", Json.str ("b1"))]⟩ ⟨none, none⟩
        ⟨[], [], [], 0⟩
      = ⟨Except.ok (), ⟨[], [], [], 0⟩, []⟩ :=
  unconfigured_silent_noop ⟨none, some "1"⟩
    ⟨some "j2", Json.obj [("bookmarkId", Json.str ("b1"))]⟩ ⟨none, none⟩
    ⟨[], [], [], 0⟩ (Or.inl rfl)

/-- C5: with the configuration gate open and a valid payload, a missing
bookmark, a bookmark without a link, or a link with an absent/empty
description makes the handler throw, and the AI chat-completion API is
never called. -/
theorem missing_bookmark_link_or_description_throws_before_ai
    (env : Env) (job : Job) (resp : AIResponse) (db : DB) (bookmarkId : String)
    (hkey : isFalsyOpt env.OPENAI_API_KEY = false)
    (hen : isFalsyOpt env.OPENAI_ENABLED = false)
    (hparse : zOpenAIRequestSchemaSafeParse job.data = some bookmarkId)
    (hbad : fetchBookmark bookmarkId db = none
      ∨ (∃ b, fetchBookmark bookmarkId db = some b ∧ b.link = none)
      ∨ (∃ b l, fetchBookmark bookmarkId db = some b ∧ b.link = some l
            ∧ isFalsyOpt l.description = true)) :
    (∃ msg, (runOpenAI env job resp db).outcome = Except.error msg)
      ∧ Effect.aiCall ∉ (runOpenAI env job resp db).trace := by
  unfold runOpenAI
  simp only [hkey, hen, hparse, Bool.or_self]
  rcases hbad with h | ⟨b, hb, hlink⟩ | ⟨b, l, hb, hlink, hdesc⟩
  · simp only [h]
    exact ⟨⟨_, rfl⟩, by simp⟩
  · simp only [hb, hlink]
    exact ⟨⟨_, rfl⟩, by simp⟩
  · simp only [hb, hlink, inferTags, hdesc]
    exact ⟨⟨_, rfl⟩, by simp⟩

/-- C5 witness. -/
theorem missing_bookmark_link_or_description_throws_before_ai_witness :
    (∃ msg,
        (runOpenAI ⟨some "k", some "1"⟩
          ⟨some "j3", Json.obj [("bookmarkId", Json.str ("b1"))]⟩ ⟨none, none⟩
          ⟨[], [], [], 0⟩).outcome = Except.error msg)
      ∧ Effect.aiCall ∉
          (runOpenAI ⟨some "k", some "1"⟩
            ⟨some "j3", Json.obj [("bookmarkId", Json.str ("b1"))]⟩ ⟨none, none⟩
            ⟨[], [], [], 0⟩).trace :=
  missing_bookmark_link_or_description_throws_before_ai ⟨some "k", some "1"⟩
    ⟨some "j3", Json.obj [("bookmarkId", Json.str ("b1"))]⟩ ⟨none, none⟩
    ⟨[], [], [], 0⟩ "b1" rfl rfl rfl (Or.inl rfl)

/-- C6: an AI message content that is not valid JSON, or whose parsed
JSON does not match the `tags` schema, makes the handler throw an error
whose message contains the job id. -/
theorem unparseable_response_error_mentions_job_id
    (jobId : String) (link : Link) (resp : AIResponse)
    (hdesc : isFalsyOpt link.description = false)
    (hcontent : isFalsyOpt resp.content = false)
    (hbad : resp.parsedContent = none
      ∨ ∃ j, resp.parsedContent = some j ∧ openAIResponseSchemaParse j = none) :
    ∃ msg, (inferTags jobId link resp).1 = Except.error msg
      ∧ containsSub msg jobId := by
  unfold inferTags
  rw [hdesc, hcontent]
  rcases hbad with h | ⟨j, hj, hparse⟩
  · rw [h]
    exact ⟨_, rfl, "[openai][", "] Failed to parse JSON response from OpenAI: error", rfl⟩
  · simp only [hj, hparse]
    exact ⟨_, rfl, "[openai][", "] Failed to parse JSON response from OpenAI: error", rfl⟩

/-- C6 witness. -/
theorem unparseable_response_error_mentions_job_id_witness :
    ∃ msg, (inferTags "j1" (⟨"l1", "u1", some "d"⟩ : Link) ⟨some "c", none⟩).1
        = Except.error msg
      ∧ containsSub msg "j1" :=
  unparseable_response_error_mentions_job_id "j1" ⟨"l1", "u1", some "d"⟩
    ⟨some "c", none⟩ rfl rfl (Or.inl rfl)

/-- C7 counterexample: the handler's storage effects are not
all-or-nothing. For an AI response inferring `["baz","baz"]` on a user
with no tags, the first create commits, the second one violates the
(userId, name) uniqueness constraint, and the exception propagates with
the first tag row persisted and no association recorded — a
partial-success state. -/
theorem partial_write_on_duplicate_inferred_tags :
    (runOpenAI ⟨some "k", some "1"⟩
        ⟨some "j7", Json.obj [("bookmarkId", Json.str ("b1"))]⟩
        ⟨some "c", some (Json.obj [("tags", Json.arr [Json.str ("baz"), Json.str ("baz")])])⟩
        ⟨[⟨"b1", "u1", some ⟨"l1", "hx", some "d"⟩⟩], [], [], 0⟩).outcome
      = Except.error ("Unique constraint failed on (userId, name)")
    ∧ (runOpenAI ⟨some "k", some "1"⟩
        ⟨some "j7", Json.obj [("bookmarkId", Json.str ("b1"))]⟩
        ⟨some "c", some (Json.obj [("tags", Json.arr [Json.str ("baz"), Json.str ("baz")])])⟩
        ⟨[⟨"b1", "u1", some ⟨"l1", "hx", some "d"⟩⟩], [], [], 0⟩).db.tags
      = [⟨"t0", "u1", "baz"⟩]
    ∧ (runOpenAI ⟨some "k", some "1"⟩
        ⟨some "j7", Json.obj [("bookmarkId", Json.str ("b1"))]⟩
        ⟨some "c", some (Json.obj [("tags", Json.arr [Json.str ("baz"), Json.str ("baz")])])⟩
        ⟨[⟨"b1", "u1", some ⟨"l1", "hx", some "d"⟩⟩], [], [], 0⟩).db.tagsOnBookmarks
      = [] :=
  ⟨rfl, by decide, by decide⟩

/-- C7 amended: no partial-success marker is ever recorded — an erroring
run never touches the association table — and every throw site of the
handler's own code precedes the first storage write, so an error raised
before any tag create was issued leaves the storage state unchanged;
only a constraint failure inside the tag-creation `Promise.all` can
leave earlier created rows behind. -/
theorem error_before_first_write_leaves_storage_unchanged
    (env : Env) (job : Job) (resp : AIResponse) (db : DB)
    (h : ∃ msg, (runOpenAI env job resp db).outcome = Except.error msg) :
    (runOpenAI env job resp db).db.tagsOnBookmarks = db.tagsOnBookmarks
      ∧ ((∀ u n, Effect.createTag u n ∉ (runOpenAI env job resp db).trace) →
          (runOpenAI env job resp db).db = db) := by
  rcases runOpenAI_frame env job resp db with hok | hframe
  · rcases h with ⟨msg, hmsg⟩
    rw [hok] at hmsg
    cases hmsg
  · exact hframe

/-- C7 amended witness. -/
theorem error_before_first_write_leaves_storage_unchanged_witness :
    (runOpenAI ⟨some "k", some "1"⟩ ⟨some "j", Json.null⟩ ⟨none, none⟩
        ⟨[], [], [], 0⟩).db.tagsOnBookmarks
      = (⟨[], [], [], 0⟩ : DB).tagsOnBookmarks
    ∧ ((∀ u n, Effect.createTag u n ∉
          (runOpenAI ⟨some "k", some "1"⟩ ⟨some "j", Json.null⟩ ⟨none, none⟩
            ⟨[], [], [], 0⟩).trace) →
        (runOpenAI ⟨some "k", some "1"⟩ ⟨some "j", Json.null⟩ ⟨none, none⟩
          ⟨[], [], [], 0⟩).db = ⟨[], [], [], 0⟩) :=
  error_before_first_write_leaves_storage_unchanged ⟨some "k", some "1"⟩
    ⟨some "j", Json.null⟩ ⟨none, none⟩ ⟨[], [], [], 0⟩ ⟨_, rfl⟩

/-- C8 counterexample: tag names are not deduplicated per user before
creation. For the inferred list `["baz","baz"]` on a user with no
existing tags, the existing-tags filter keeps both occurrences, the
handler issues two create calls for the same (u1, baz) pair, the second
violates the uniqueness constraint and the call errors instead of
completing with a deduplicated tag set. -/
theorem duplicate_new_tag_not_deduplicated :
    newTagNames ["baz", "baz"] "u1" ⟨[], [], [], 0⟩ = ["baz", "baz"]
    ∧ (createTags ["baz", "baz"] "u1" ⟨[], [], [], 0⟩).2.2.count
        (Effect.createTag "u1" "baz") = 2
    ∧ (createTags ["baz", "baz"] "u1" ⟨[], [], [], 0⟩).1
        = Except.error ("Unique constraint failed on (userId, name)")
    ∧ (createTags ["baz", "baz"] "u1" ⟨[], [], [], 0⟩).2.1.tags
        = [⟨"t0", "u1", "baz"⟩] :=
  ⟨by decide, by decide, rfl, by decide⟩

/-- C8 amended: tag names are deduplicated only against the user's
existing tags: every row `createTags` persists belongs to the given
user, carries a name from the inferred list, and duplicates no
(userId, name) pair the user already had — and the tags table keeps at
most one row per (userId, name) pair, because a duplicate occurrence of
a new name in the inferred list is not filtered out but fails on the
uniqueness constraint (erroring the job) rather than creating a second
row. -/
theorem dedup_against_existing_tags_only
    (tags : List String) (userId : String) (db : DB) :
    (∀ row ∈ (createTags tags userId db).2.1.tags, row ∉ db.tags →
        row.userId = userId ∧ row.name ∈ tags
          ∧ ∀ r ∈ db.tags, r.userId = userId → r.name ≠ row.name)
      ∧ (uniqByUserName db.tags →
          uniqByUserName (createTags tags userId db).2.1.tags) := by
  constructor
  · intro row hrow hnew
    have hrow1 : row ∈ (createTagRows (newTagNames tags userId db) userId db).2.tags := by
      simpa [createTags] using hrow
    rcases createTagRows_mem_characterization _ _ _ row hrow1 with h | ⟨h1, h2, h3⟩
    · exact absurd h hnew
    · have h2' : row.name ∈ tags := by
        have := h2
        simp only [newTagNames, List.mem_filter] at this
        exact this.1
      exact ⟨h1, h2', h3⟩
  · intro hu
    have := createTagRows_uniq (newTagNames tags userId db) userId db hu
    simpa [createTags] using this

/-- C8 amended witness. -/
theorem dedup_against_existing_tags_only_witness :
    ((⟨"t0", "u1", "baz"⟩ : TagRow).userId = "u1"
      ∧ (⟨"t0", "u1", "baz"⟩ : TagRow).name ∈ ["baz"]
      ∧ ∀ r ∈ (⟨[], [], [], 0⟩ : DB).tags, r.userId = "u1"
          → r.name ≠ (⟨"t0", "u1", "baz"⟩ : TagRow).name)
    ∧ uniqByUserName (createTags ["baz"] "u1" ⟨[], [], [], 0⟩).2.1.tags :=
  ⟨(dedup_against_existing_tags_only ["baz"] "u1" ⟨[], [], [], 0⟩).1
      ⟨"t0", "u1", "baz"⟩ (by decide) (by decide),
   (dedup_against_existing_tags_only ["baz"] "u1" ⟨[], [], [], 0⟩).2
      (List.Pairwise.nil)⟩

/-- C9: every bookmark-tag association row created by `connectTags`
records the attaching actor as `"ai"`, links the given bookmark, and
points at one of the given tag ids. -/
theorem associations_attached_by_ai
    (bookmarkId : String) (tagIds : List String) (db : DB) (row : TagOnBookmark)
    (hrow : row ∈ (connectTags bookmarkId tagIds db).tagsOnBookmarks)
    (hnew : row ∉ db.tagsOnBookmarks) :
    row.attachedBy = "ai" ∧ row.bookmarkId = bookmarkId ∧ row.tagId ∈ tagIds := by
  unfold connectTags at hrow
  simp only [List.mem_append, List.mem_map] at hrow
  rcases hrow with h | ⟨tid, htid, heq⟩
  · exact absurd h hnew
  · subst heq
    exact ⟨rfl, rfl, htid⟩

/-- C9 witness. -/
theorem associations_attached_by_ai_witness :
    (⟨"t1", "b1", "ai"⟩ : TagOnBookmark).attachedBy = "ai"
      ∧ (⟨"t1", "b1", "ai"⟩ : TagOnBookmark).bookmarkId = "b1"
      ∧ (⟨"t1", "b1", "ai"⟩ : TagOnBookmark).tagId ∈ ["t1"] :=
  associations_attached_by_ai "b1" ["t1"] ⟨[], [], [], 0⟩ ⟨"t1", "b1", "ai"⟩
    (by decide) (by decide)

/-- C10: hashtag stripping removes at most one leading `#` (`"##x"` is
stored as `"#x"`), a tag of exactly `"#"` becomes the empty string, and
the empty-string tag is still created as a tag row and associated with
the bookmark (no emptiness filter). -/
theorem hashtag_strip_single_and_empty_tag_created :
    (inferTags "j1" (⟨"l1", "u1", some "d"⟩ : Link)
        ⟨some "c", some (Json.obj [("tags", Json.arr [Json.str ("##x"), Json.str ("#")])])⟩).1
      = Except.ok ["#x", ""]
    ∧ (createTags ["#x", ""] "u1" ⟨[], [], [], 0⟩).1 = Except.ok ["t0", "t1"]
    ∧ (createTags ["#x", ""] "u1" ⟨[], [], [], 0⟩).2.1.tags
      = [⟨"t0", "u1", "#x"⟩, ⟨"t1", "u1", ""⟩]
    ∧ (connectTags "b1" ["t0", "t1"]
          (createTags ["#x", ""] "u1" ⟨[], [], [], 0⟩).2.1).tagsOnBookmarks
      = [⟨"t0", "b1", "ai"⟩, ⟨"t1", "b1", "ai"⟩] :=
  ⟨rfl, rfl, by decide, by decide⟩

end Hoarder
